import Mathlib

/-!
Shallow embedding of the schema-driven configuration form engine in
`src/components/schema-form/SchemaForm.tsx` (the `SchemaForm` component and its
helpers: `ObjectField`, `ArrayField`, `FieldRenderer`, `PrimitiveField`,
`getSchemaType`, `getDefaultValue`).

Modelling conventions:
- JavaScript values are the inductive `JValue`; `undefined` is `JValue.undefined`
  and `null` is `JValue.null`.  JavaScript IEEE-754 numbers are modelled as
  exact rationals `ℚ` (every claim under verification only exercises integers
  and finite decimal fractions; `NaN`/`Infinity` literals are outside the
  model, and a `NaN` parse result is modelled as `Option.none`).
- JavaScript objects are modelled as ordered association lists
  `List (String × JValue)` (JS objects preserve insertion order for string
  keys); arrays as `List JValue`.
- An optional TS field `x?: T` becomes `Option T`; a JS truthiness test on it
  is modelled explicitly where the source performs one.
- React rendering is modelled by the pure dispatch functions that decide which
  editor/control a node gets (`fieldRendererDispatch`, `primitiveRender`), and
  each inline change callback of the source becomes a named pure function
  (`handlePropertyChange`, `handleAdd`, `handleRemove`, `handleItemChange`,
  `enumOnValueChange`, `numberOnChange`, `textareaOnChange`,
  `textInputOnChange`).  Since Lean values are immutable, the source contract
  "never mutate the received value" is represented by these functions being
  pure; the substantive content (shallow copy substituting only the changed
  child) is proved as frame theorems.
-/

namespace SchemaForm

/-- A JavaScript runtime value as it flows through the form engine
(`unknown` in the TS source). -/
inductive JValue where
  | undefined : JValue
  | null : JValue
  | bool (b : Bool) : JValue
  | num (q : ℚ) : JValue
  | str (s : String) : JValue
  | arr (items : List JValue) : JValue
  | obj (fields : List (String × JValue)) : JValue

/-- An enum literal: the TS interface declares
`enum?: (string | number | boolean)[]`. -/
inductive JLit where
  | str (s : String) : JLit
  | num (q : ℚ) : JLit
  | bool (b : Bool) : JLit

/-- The TS interface declares `type?: string | string[]`. -/
inductive TypeHint where
  | single (t : String) : TypeHint
  | list (ts : List String) : TypeHint

/-- The `JsonSchema` interface of the source (fields in declaration order).
The fields `additionalProperties`, `oneOf`, `anyOf`, `allOf` and `const` are
declared in the TS interface but never read by the component, so they are
omitted from the embedding. -/
inductive JsonSchema where
  | mk (type : Option TypeHint)
       (title : Option String)
       (description : Option String)
       (properties : Option (List (String × JsonSchema)))
       (items : Option JsonSchema)
       (enum : Option (List JLit))
       (default : Option JValue)
       (required : Option (List String))
       (minimum : Option ℚ)
       (maximum : Option ℚ)
       (minLength : Option ℚ)
       (maxLength : Option ℚ)
       (pattern : Option String)
       (format : Option String) : JsonSchema

def JsonSchema.type : JsonSchema → Option TypeHint
  | .mk t _ _ _ _ _ _ _ _ _ _ _ _ _ => t

def JsonSchema.title : JsonSchema → Option String
  | .mk _ t _ _ _ _ _ _ _ _ _ _ _ _ => t

def JsonSchema.description : JsonSchema → Option String
  | .mk _ _ d _ _ _ _ _ _ _ _ _ _ _ => d

def JsonSchema.properties : JsonSchema → Option (List (String × JsonSchema))
  | .mk _ _ _ p _ _ _ _ _ _ _ _ _ _ => p

def JsonSchema.items : JsonSchema → Option JsonSchema
  | .mk _ _ _ _ i _ _ _ _ _ _ _ _ _ => i

def JsonSchema.enum : JsonSchema → Option (List JLit)
  | .mk _ _ _ _ _ e _ _ _ _ _ _ _ _ => e

def JsonSchema.default : JsonSchema → Option JValue
  | .mk _ _ _ _ _ _ d _ _ _ _ _ _ _ => d

def JsonSchema.required : JsonSchema → Option (List String)
  | .mk _ _ _ _ _ _ _ r _ _ _ _ _ _ => r

def JsonSchema.minimum : JsonSchema → Option ℚ
  | .mk _ _ _ _ _ _ _ _ m _ _ _ _ _ => m

def JsonSchema.maximum : JsonSchema → Option ℚ
  | .mk _ _ _ _ _ _ _ _ _ m _ _ _ _ => m

def JsonSchema.minLength : JsonSchema → Option ℚ
  | .mk _ _ _ _ _ _ _ _ _ _ m _ _ _ => m

def JsonSchema.maxLength : JsonSchema → Option ℚ
  | .mk _ _ _ _ _ _ _ _ _ _ _ m _ _ => m

def JsonSchema.pattern : JsonSchema → Option String
  | .mk _ _ _ _ _ _ _ _ _ _ _ _ p _ => p

def JsonSchema.format : JsonSchema → Option String
  | .mk _ _ _ _ _ _ _ _ _ _ _ _ _ f => f

/-- A schema with every field absent; concrete schemas below override the
fields they set. -/
def emptySchema : JsonSchema :=
  .mk none none none none none none none none none none none none none none

/-- `{ type: t }` -/
def typedSchema (t : String) : JsonSchema :=
  .mk (some (.single t)) none none none none none none none none none none none none none

/-- JS truthiness of the `schema.type` field: `undefined` and `""` are falsy,
any array (even empty) is truthy. -/
def typeTruthy : Option TypeHint → Bool
  | none => false
  | some (.single t) => !(t == "")
  | some (.list _) => true

/-- `getSchemaType` (source lines 452-460):
```
if (schema.type) return Array.isArray(schema.type) ? schema.type[0] : schema.type;
if (schema.properties) return "object";
if (schema.items) return "array";
if (schema.enum) return "string";
return "string";
```
`type[0]` of an empty list is `undefined` in JS; it is modelled as `""`, which
compares unequal to every kind name the component tests against, exactly as
`undefined` does. -/
def getSchemaType (schema : JsonSchema) : String :=
  if typeTruthy schema.type then
    match schema.type with
    | some (.list ts) => ts.headD ""
    | some (.single t) => t
    | none => ""
  else if schema.properties.isSome then "object"
  else if schema.items.isSome then "array"
  else if schema.enum.isSome then "string"
  else "string"

/-- `value !== undefined` for an optional field (`schema.default !== undefined`). -/
def jsDefined : Option JValue → Bool
  | some .undefined => false
  | some _ => true
  | none => false

/-- `getDefaultValue` (source lines 470-486). -/
def getDefaultValue (schema : JsonSchema) : JValue :=
  if jsDefined schema.default then schema.default.getD .undefined
  else
    match getSchemaType schema with
    | "object" => .obj []
    | "array" => .arr []
    | "boolean" => .bool false
    | "number" => .num 0
    | "integer" => .num 0
    | _ => .str ""

/-! ### Object editor (`ObjectField`, source lines 66-121) -/

/-- `typeof value === "object" && value !== null ? value : {}` (source line 67).
In JS, arrays also satisfy `typeof value === "object"`, and spreading an array
into an object literal produces its index-keyed string properties, so the
array case is modelled as an index-keyed association list. -/
def objCoerce : JValue → List (String × JValue)
  | .obj fields => fields
  | .arr items => items.enum.map fun p => (toString p.1, p.2)
  | _ => []

/-- Reading `obj[k]` from an association list: the value at the first matching
key, `undefined` when absent. -/
def jsGet (fields : List (String × JValue)) (k : String) : JValue :=
  match fields.find? (fun p => p.1 == k) with
  | some p => p.2
  | none => .undefined

/-- `obj.hasOwnProperty(k)` for the association-list model. -/
def hasKey (fields : List (String × JValue)) (k : String) : Bool :=
  fields.any (fun p => p.1 == k)

/-- `{ ...obj, [k]: v }`: a fresh object in which `k` is bound to `v`; when `k`
already occurs its position in insertion order is kept, otherwise the binding
is appended at the end.  Every other binding is carried over unchanged. -/
def jsObjSet (fields : List (String × JValue)) (k : String) (v : JValue) :
    List (String × JValue) :=
  if hasKey fields k then
    fields.map fun p => if p.1 == k then (k, v) else p
  else fields ++ [(k, v)]

/-- `ObjectField.handlePropertyChange` (source lines 82-84):
`onChange({ ...objValue, [propName]: propValue })`.  Returns the new root the
callback passes to `onChange`. -/
def handlePropertyChange (value : JValue) (propName : String) (propValue : JValue) :
    JValue :=
  .obj (jsObjSet (objCoerce value) propName propValue)

/-- The field classifier, `simpleFields` (source lines 73-76):
`entries.filter(([_, s]) => getSchemaType(s) !== "object" && getSchemaType(s) !== "array")`. -/
def simpleFields (entries : List (String × JsonSchema)) : List (String × JsonSchema) :=
  entries.filter fun p =>
    !(getSchemaType p.2 == "object") && !(getSchemaType p.2 == "array")

/-- The field classifier, `complexFields` (source lines 77-80):
`entries.filter(([_, s]) => getSchemaType(s) === "object" || getSchemaType(s) === "array")`. -/
def complexFields (entries : List (String × JsonSchema)) : List (String × JsonSchema) :=
  entries.filter fun p =>
    getSchemaType p.2 == "object" || getSchemaType p.2 == "array"

/-! ### Array editor (`ArrayField`, source lines 186-276) -/

/-- `Array.isArray(value)`. -/
def isArray : JValue → Bool
  | .arr _ => true
  | _ => false

/-- `Array.isArray(value) ? value : []` (source line 187). -/
def arrCoerce : JValue → List JValue
  | .arr items => items
  | _ => []

/-- `schema.items ?? { type: "string" }` (source line 188). -/
def itemSchemaOf (schema : JsonSchema) : JsonSchema :=
  schema.items.getD (typedSchema "string")

/-- `ArrayField.handleAdd` (source lines 191-194):
`onChange([...arrayValue, getDefaultValue(itemSchema)])`. -/
def handleAdd (schema : JsonSchema) (value : JValue) : JValue :=
  .arr (arrCoerce value ++ [getDefaultValue (itemSchemaOf schema)])

/-- `arrayValue.filter((_, i) => i !== index)` with the element counter carried
explicitly (the counter starts at 0 at the call site). -/
def removeAtGo (l : List JValue) (index : ℕ) (i : ℕ) : List JValue :=
  match l with
  | [] => []
  | x :: xs =>
    if i ≠ index then x :: removeAtGo xs index (i + 1)
    else removeAtGo xs index (i + 1)

/-- `ArrayField.handleRemove` (source lines 196-198):
`onChange(arrayValue.filter((_, i) => i !== index))`. -/
def handleRemove (value : JValue) (index : ℕ) : JValue :=
  .arr (removeAtGo (arrCoerce value) index 0)

/-- `const a = [...arr]; a[index] = v`.  For `index < arr.length` this replaces
position `index`; a JS assignment past the end would extend the array with
holes (read back as `undefined`), modelled by explicit padding (the component
only ever calls it with in-range indices). -/
def jsArrSet (l : List JValue) (index : ℕ) (v : JValue) : List JValue :=
  if index < l.length then l.set index v
  else l ++ List.replicate (index - l.length) .undefined ++ [v]

/-- `ArrayField.handleItemChange` (source lines 200-204):
`const newArray = [...arrayValue]; newArray[index] = itemValue; onChange(newArray)`. -/
def handleItemChange (value : JValue) (index : ℕ) (itemValue : JValue) : JValue :=
  .arr (jsArrSet (arrCoerce value) index itemValue)

/-! ### Editor dispatch (`FieldRenderer` lines 278-314, `CollapsibleSection`
lines 162-178, `ArrayField` item dispatch lines 214-265) -/

inductive EditorKind where
  | objectEditor : EditorKind
  | arrayEditor : EditorKind
  | primitiveEditor : EditorKind
deriving DecidableEq

/-- Which editor a property is routed to.  `FieldRenderer` sends resolved kind
`object`/`array` to `CollapsibleSection`, which renders `ArrayField` when the
kind is `array` and `ObjectField` otherwise; every other kind goes to
`PrimitiveField`.  The decision reads only the schema, never the value. -/
def fieldRendererDispatch (schema : JsonSchema) : EditorKind :=
  let type := getSchemaType schema
  if type == "object" || type == "array" then
    if type == "array" then .arrayEditor else .objectEditor
  else .primitiveEditor

/-! ### Primitive editor (`PrimitiveField`, source lines 316-449) -/

/-- The control `PrimitiveField` renders. -/
inductive RenderKind where
  | booleanToggle : RenderKind
  | enumSelect : RenderKind
  | numberInput : RenderKind
  | textareaInput : RenderKind
  | textInput : RenderKind
deriving DecidableEq

/-- `schema.enum && schema.enum.length > 0` (source line 328). -/
def hasEnum (schema : JsonSchema) : Bool :=
  match schema.enum with
  | some es => es.length > 0
  | none => false

/-- `schema.format === "textarea" || (schema.maxLength && schema.maxLength > 200)`
(source line 411); `schema.maxLength &&` is a JS truthiness test, false for 0. -/
def isMultiline (schema : JsonSchema) : Bool :=
  (schema.format == some "textarea") ||
    (match schema.maxLength with
     | some m => !(m == 0) && decide (m > 200)
     | none => false)

/-- The branch order of `PrimitiveField`: boolean toggle first (line 331), then
enum select (line 352), then number input (line 386), then multiline textarea
(line 413), then the default single-line text input (line 433). -/
def primitiveRender (schema : JsonSchema) : RenderKind :=
  let type := getSchemaType schema
  if type == "boolean" then .booleanToggle
  else if hasEnum schema then .enumSelect
  else if type == "number" || type == "integer" then .numberInput
  else if isMultiline schema then .textareaInput
  else .textInput

/-- The runtime value an enum literal stands for. -/
def JLit.toJValue : JLit → JValue
  | .str s => .str s
  | .num q => .num q
  | .bool b => .bool b

/-- `String(n)` for a number.  Exact for integers; a non-integer rational is
printed as `num/den`, standing in for the double's decimal representation
(no claim under verification exercises a non-integer literal). -/
def jsNumToString (q : ℚ) : String :=
  if q.den = 1 then toString q.num
  else toString q.num ++ "/" ++ toString q.den

/-- `String(e)` for an enum literal (source lines 366, 375). -/
def JLit.toDisplayString : JLit → String
  | .str s => s
  | .num q => jsNumToString q
  | .bool b => if b then "true" else "false"

/-- The enum `Select`'s `onValueChange` (source lines 364-368):
```
const enumVal = schema.enum?.find((e) => String(e) === v);
onChange(enumVal ?? v);
```
(`enumVal` is a string/number/boolean literal, never nullish, so `??` falls
through to `v` exactly when `find` misses). -/
def enumOnValueChange (schema : JsonSchema) (v : String) : JValue :=
  match (schema.enum.getD []).find? (fun e => e.toDisplayString == v) with
  | some e => e.toJValue
  | none => .str v

/-! ### Numeric parsing (`parseInt(·, 10)` / `parseFloat`, source line 400)

Modelled on exact rationals over the decimal grammar both functions accept:
optional leading whitespace, optional sign, then for `parseInt` a digit run
and for `parseFloat` a digit run with optional fraction and exponent; both
ignore trailing garbage and yield `NaN` (here `none`) when no digit was
consumed.  The `Infinity` literals accepted by `parseFloat` are outside the
rational model. -/

def isJsWs (c : Char) : Bool :=
  c == ' ' || c == '\t' || c == '\n' || c == '\r'

def isAsciiDigit (c : Char) : Bool :=
  '0' ≤ c && c ≤ '9'

/-- Value of a digit run, most significant first. -/
def digitsVal (ds : List Char) : ℕ :=
  ds.foldl (fun acc c => acc * 10 + (c.toNat - 48)) 0

/-- Consume an optional sign, returning the sign as `1` or `-1`. -/
def takeSign : List Char → ℤ × List Char
  | '-' :: rest => (-1, rest)
  | '+' :: rest => (1, rest)
  | cs => (1, cs)

/-- `parseInt(s, 10)`: skip whitespace, optional sign, then the longest digit
prefix; `NaN` (`none`) when that prefix is empty. -/
def jsParseInt (s : String) : Option ℚ :=
  let cs := s.toList.dropWhile isJsWs
  let sc := takeSign cs
  let ds := sc.2.takeWhile isAsciiDigit
  if ds.isEmpty then none
  else some (mkRat (sc.1 * (digitsVal ds : ℤ)) 1)

/-- Exponent suffix of a `parseFloat` literal: `e`/`E`, optional sign, digits;
an `e` not followed by digits contributes nothing (it is past the parsed
prefix). -/
def takeExponent : List Char → ℤ
  | 'e' :: rest =>
    let sc := takeSign rest
    let ds := sc.2.takeWhile isAsciiDigit
    if ds.isEmpty then 0 else sc.1 * (digitsVal ds : ℤ)
  | 'E' :: rest =>
    let sc := takeSign rest
    let ds := sc.2.takeWhile isAsciiDigit
    if ds.isEmpty then 0 else sc.1 * (digitsVal ds : ℤ)
  | _ => 0

/-- `parseFloat(s)`: skip whitespace, optional sign, integer digits, optional
`.` and fraction digits, optional exponent; `NaN` (`none`) when no integer or
fraction digit was consumed. -/
def jsParseFloat (s : String) : Option ℚ :=
  let cs := s.toList.dropWhile isJsWs
  let sc := takeSign cs
  let intDs := sc.2.takeWhile isAsciiDigit
  let rest := sc.2.drop intDs.length
  let fracDs :=
    match rest with
    | '.' :: r => r.takeWhile isAsciiDigit
    | _ => []
  let rest2 :=
    match rest with
    | '.' :: r => r.drop fracDs.length
    | _ => rest
  if intDs.isEmpty && fracDs.isEmpty then none
  else
    let exp : ℤ := takeExponent rest2
    let shiftUp : ℕ := exp.toNat
    let shiftDown : ℕ := (-exp).toNat
    some (mkRat (sc.1 * ((digitsVal (intDs ++ fracDs) * 10 ^ shiftUp : ℕ) : ℤ))
      (10 ^ (fracDs.length + shiftDown)))

/-- The numeric `Input`'s `onChange` (source lines 399-402):
```
const num = type === "integer" ? parseInt(e.target.value, 10) : parseFloat(e.target.value);
onChange(isNaN(num) ? undefined : num);
```
`text` is `e.target.value`. -/
def numberOnChange (schema : JsonSchema) (text : String) : JValue :=
  let num :=
    if getSchemaType schema == "integer" then jsParseInt text else jsParseFloat text
  match num with
  | none => .undefined
  | some q => .num q

/-- The `Textarea`'s `onChange` (source line 425): `onChange(e.target.value)`. -/
def textareaOnChange (text : String) : JValue :=
  .str text

/-- The single-line `Input`'s `onChange` (source line 445):
`onChange(e.target.value || undefined)` — the empty string is falsy. -/
def textInputOnChange (text : String) : JValue :=
  if text == "" then .undefined else .str text

/-! ### Concrete schemas used in examples and witnesses -/

/-- `{ type: "object", properties: props }` -/
def objectSchemaWith (props : List (String × JsonSchema)) : JsonSchema :=
  .mk (some (.single "object")) none none (some props) none none none none none none none none none none

/-- `{ type: "array", items: item }` -/
def arrayOf (item : JsonSchema) : JsonSchema :=
  .mk (some (.single "array")) none none none (some item) none none none none none none none none none

/-- `{ type: "boolean", enum: [true, false] }` -/
def boolEnumSchema : JsonSchema :=
  .mk (some (.single "boolean")) none none none none
    (some [.bool true, .bool false]) none none none none none none none none

/-- `{ enum: [1, 2, 3] }` (the spec's enum round-trip scenario). -/
def numEnumSchema : JsonSchema :=
  .mk none none none none none
    (some [.num 1, .num 2, .num 3]) none none none none none none none none

/-- `{ type: "string", format: "textarea" }` -/
def textareaSchema : JsonSchema :=
  .mk (some (.single "string")) none none none none none none none none none none none none
    (some "textarea")

/-- The classifier scenario's property map:
`{name: {type:"string"}, tags: {type:"array", items:{type:"string"}}, enabled: {type:"boolean"}}`. -/
def exampleProps : List (String × JsonSchema) :=
  [("name", typedSchema "string"),
   ("tags", arrayOf (typedSchema "string")),
   ("enabled", typedSchema "boolean")]

/-! ### Helper lemmas -/

lemma removeAtGo_eq_take_drop (l : List JValue) (index c : ℕ) :
    removeAtGo l index c =
      if index < c then l else l.take (index - c) ++ l.drop (index - c + 1) := by
  induction l generalizing c with
  | nil => simp [removeAtGo]
  | cons x xs ih =>
    simp only [removeAtGo]
    rcases Nat.lt_trichotomy index c with h | h | h
    · have hne : c ≠ index := by omega
      rw [if_pos hne, ih, if_pos (by omega : index < c + 1), if_pos h]
    · subst h
      rw [if_neg (not_not_intro rfl), ih, if_pos (Nat.lt_succ_self index),
        if_neg (Nat.lt_irrefl index)]
      simp
    · have hne : c ≠ index := by omega
      rw [if_pos hne, ih, if_neg (by omega : ¬ index < c + 1), if_neg (by omega : ¬ index < c)]
      have h1 : index - c = (index - (c + 1)) + 1 := by omega
      rw [h1, List.take_succ_cons, List.drop_succ_cons]
      simp

lemma removeAtGo_zero (l : List JValue) (index : ℕ) :
    removeAtGo l index 0 = l.take index ++ l.drop (index + 1) := by
  rw [removeAtGo_eq_take_drop]
  simp

lemma find?_map_set_ne (fields : List (String × JValue)) (k k' : String) (v : JValue)
    (h : k' ≠ k) :
    (fields.map fun p => if p.1 == k then (k, v) else p).find? (fun p => p.1 == k') =
      fields.find? (fun p => p.1 == k') := by
  induction fields with
  | nil => rfl
  | cons p rest ih =>
    simp only [List.map_cons]
    by_cases hk : (p.1 == k) = true
    · have hp : p.1 = k := by simpa using hk
      have h1 : (k == k') = false := by simp [Ne.symm h]
      have h2 : (p.1 == k') = false := by simp [hp, Ne.symm h]
      rw [if_pos hk]
      simp only [List.find?_cons, h1, h2]
      exact ih
    · rw [if_neg hk]
      rcases hck : (p.1 == k') with _ | _
      · simp only [List.find?_cons, hck]
        exact ih
      · simp only [List.find?_cons, hck]


lemma find?_map_set_self (fields : List (String × JValue)) (k : String) (v : JValue)
    (h : hasKey fields k = true) :
    (fields.map fun p => if p.1 == k then (k, v) else p).find? (fun p => p.1 == k) =
      some (k, v) := by
  induction fields with
  | nil => simp [hasKey] at h
  | cons p rest ih =>
    simp only [List.map_cons]
    by_cases hk : (p.1 == k) = true
    · rw [if_pos hk]
      simp only [List.find?_cons, beq_self_eq_true]
    · rw [if_neg hk]
      have hk' : (p.1 == k) = false := by simpa using hk
      have h' : hasKey rest k = true := by
        simpa [hasKey, List.any_cons, hk'] using h
      simp only [List.find?_cons, hk']
      exact ih h'

lemma find?_none_of_hasKey_false (fields : List (String × JValue)) (k : String)
    (h : hasKey fields k = false) :
    fields.find? (fun p => p.1 == k) = none := by
  rw [List.find?_eq_none]
  intro x hx hpx
  have : hasKey fields k = true := by
    unfold hasKey
    rw [List.any_eq_true]
    exact ⟨x, hx, hpx⟩
  rw [this] at h
  cases h

lemma jsGet_jsObjSet_ne (fields : List (String × JValue)) (k k' : String) (v : JValue)
    (h : k' ≠ k) :
    jsGet (jsObjSet fields k v) k' = jsGet fields k' := by
  unfold jsObjSet jsGet
  by_cases hk : hasKey fields k
  · rw [if_pos hk, find?_map_set_ne fields k k' v h]
  · rw [if_neg hk, List.find?_append]
    have h1 : List.find? (fun p => p.1 == k') [(k, v)] = none := by
      simp [Ne.symm h]
    rw [h1, Option.or_none]

lemma jsGet_jsObjSet_self (fields : List (String × JValue)) (k : String) (v : JValue) :
    jsGet (jsObjSet fields k v) k = v := by
  unfold jsObjSet jsGet
  by_cases hk : hasKey fields k
  · rw [if_pos hk, find?_map_set_self fields k v hk]
  · rw [if_neg hk, List.find?_append,
      find?_none_of_hasKey_false fields k (by simpa using hk)]
    simp

lemma hasKey_jsObjSet_ne (fields : List (String × JValue)) (k k' : String) (v : JValue)
    (h : k' ≠ k) :
    hasKey (jsObjSet fields k v) k' = hasKey fields k' := by
  unfold jsObjSet
  by_cases hk : hasKey fields k
  · rw [if_pos hk]
    unfold hasKey
    have hfun : ((fun p : String × JValue => p.1 == k') ∘
        (fun p => if p.1 == k then (k, v) else p)) =
        (fun p : String × JValue => p.1 == k') := by
      funext p
      by_cases hpk : (p.1 == k) = true
      · have hp : p.1 = k := by simpa using hpk
        simp [Function.comp, hpk, hp, Ne.symm h]
      · simp [Function.comp, hpk]
    rw [List.any_map, hfun]
  · rw [if_neg hk]
    unfold hasKey
    rw [List.any_append]
    have : List.any [(k, v)] (fun p => p.1 == k') = false := by
      simp [Ne.symm h]
    rw [this, Bool.or_false]

lemma remove_length (l : List JValue) (i : ℕ) (hi : i < l.length) :
    (removeAtGo l i 0).length = l.length - 1 := by
  rw [removeAtGo_zero, List.length_append, List.length_take, List.length_drop]
  omega

lemma remove_getElem_lt (l : List JValue) (i j : ℕ) (hi : i < l.length) (hj : j < i) :
    (removeAtGo l i 0)[j]? = l[j]? := by
  rw [removeAtGo_zero,
    List.getElem?_append_left (by rw [List.length_take]; omega),
    List.getElem?_take_of_lt hj]

lemma remove_getElem_ge (l : List JValue) (i j : ℕ) (hi : i < l.length)
    (hij : i ≤ j) (_hjl : j < l.length - 1) :
    (removeAtGo l i 0)[j]? = l[j + 1]? := by
  have htake : (l.take i).length = i := by
    rw [List.length_take]
    omega
  rw [removeAtGo_zero, List.getElem?_append_right (by rw [htake]; omega), htake,
    List.getElem?_drop]
  have harith : i + 1 + (j - i) = j + 1 := by omega
  rw [harith]

lemma set_length (l : List JValue) (i : ℕ) (w : JValue) (hi : i < l.length) :
    (jsArrSet l i w).length = l.length := by
  unfold jsArrSet
  rw [if_pos hi, List.length_set]

lemma set_getElem_ne (l : List JValue) (i j : ℕ) (w : JValue) (hi : i < l.length)
    (hji : j ≠ i) :
    (jsArrSet l i w)[j]? = l[j]? := by
  unfold jsArrSet
  rw [if_pos hi, List.getElem?_set_ne (Ne.symm hji)]

lemma set_getElem_self (l : List JValue) (i : ℕ) (w : JValue) (hi : i < l.length) :
    (jsArrSet l i w)[i]? = some w := by
  unfold jsArrSet
  rw [if_pos hi, List.getElem?_set_self hi]

/-! ### The claims -/

/-- C7: `handleRemove i` on an `n`-element array yields an `(n-1)`-element
array in which elements originally at indices `0..i-1` are unchanged at their
positions and elements originally at `i+1..n-1` are shifted down by one, each
unchanged in value. -/
theorem handleRemove_shifts_indices_down (l : List JValue) (i : ℕ) (hi : i < l.length) :
    (arrCoerce (handleRemove (.arr l) i)).length = l.length - 1 ∧
    (∀ j, j < i → (arrCoerce (handleRemove (.arr l) i))[j]? = l[j]?) ∧
    (∀ j, i ≤ j → j < l.length - 1 →
      (arrCoerce (handleRemove (.arr l) i))[j]? = l[j + 1]?) := by
  refine ⟨remove_length l i hi, fun j hj => remove_getElem_lt l i j hi hj,
    fun j hij hjl => remove_getElem_ge l i j hi hij hjl⟩

/-- Witness for C7: removing index 1 from `[10, 20, 30]`. -/
theorem handleRemove_shifts_indices_down_witness :
    1 < ([JValue.num 10, JValue.num 20, JValue.num 30] : List JValue).length ∧
    ((arrCoerce (handleRemove (.arr [JValue.num 10, JValue.num 20, JValue.num 30]) 1)).length =
        ([JValue.num 10, JValue.num 20, JValue.num 30] : List JValue).length - 1 ∧
      (∀ j, j < 1 →
        (arrCoerce (handleRemove (.arr [JValue.num 10, JValue.num 20, JValue.num 30]) 1))[j]? =
          ([JValue.num 10, JValue.num 20, JValue.num 30] : List JValue)[j]?) ∧
      (∀ j, 1 ≤ j → j < ([JValue.num 10, JValue.num 20, JValue.num 30] : List JValue).length - 1 →
        (arrCoerce (handleRemove (.arr [JValue.num 10, JValue.num 20, JValue.num 30]) 1))[j]? =
          ([JValue.num 10, JValue.num 20, JValue.num 30] : List JValue)[j + 1]?)) :=
  ⟨by decide, handleRemove_shifts_indices_down [JValue.num 10, JValue.num 20, JValue.num 30] 1 (by decide)⟩

/-- C6: a node declared `type: "array"` always dispatches to the array editor
regardless of the current value; any non-array value (including `null`) is
treated as the empty sequence, and appending to it yields a one-element
array. -/
theorem declared_array_kind_is_value_stable (schema : JsonSchema) (v : JValue)
    (hk : getSchemaType schema = "array") (hv : isArray v = false) :
    fieldRendererDispatch schema = .arrayEditor ∧
    arrCoerce v = [] ∧
    handleAdd schema v = .arr [getDefaultValue (itemSchemaOf schema)] ∧
    (arrCoerce (handleAdd schema v)).length = 1 := by
  have hcoerce : arrCoerce v = [] := by
    cases v <;> first
      | rfl
      | (exfalso; simp [isArray] at hv)
  refine ⟨?_, hcoerce, ?_, ?_⟩
  · simp [fieldRendererDispatch, hk]
  · simp [handleAdd, hcoerce]
  · have hunfold : arrCoerce (handleAdd schema v) =
        arrCoerce v ++ [getDefaultValue (itemSchemaOf schema)] := rfl
    rw [hunfold, hcoerce]
    rfl

/-- Witness for C6: `{ type: "array" }` with current value `null`. -/
theorem declared_array_kind_is_value_stable_witness :
    getSchemaType (typedSchema "array") = "array" ∧
    isArray JValue.null = false ∧
    (fieldRendererDispatch (typedSchema "array") = .arrayEditor ∧
      arrCoerce JValue.null = [] ∧
      handleAdd (typedSchema "array") JValue.null =
        .arr [getDefaultValue (itemSchemaOf (typedSchema "array"))] ∧
      (arrCoerce (handleAdd (typedSchema "array") JValue.null)).length = 1) :=
  ⟨rfl, rfl, declared_array_kind_is_value_stable (typedSchema "array") JValue.null rfl rfl⟩

/-- `{ default: 7 }` -/
def withDefault7 : JsonSchema :=
  .mk none none none none none none (some (.num 7)) none none none none none none none

/-- C5: `getDefaultValue` returns `schema.default` verbatim when present, and
otherwise the zero value of the resolved kind (`{}`/`[]`/`false`/`0`/`""`);
consequently appending to an empty array whose item schema is an object with
declared properties appends exactly `{}`, never an object pre-filled with
per-property zero values. -/
theorem getDefaultValue_spec (schema : JsonSchema) :
    (∀ d : JValue, schema.default = some d → jsDefined (some d) = true →
      getDefaultValue schema = d) ∧
    (jsDefined schema.default = false →
      (getSchemaType schema = "object" → getDefaultValue schema = .obj []) ∧
      (getSchemaType schema = "array" → getDefaultValue schema = .arr []) ∧
      (getSchemaType schema = "boolean" → getDefaultValue schema = .bool false) ∧
      (getSchemaType schema = "number" → getDefaultValue schema = .num 0) ∧
      (getSchemaType schema = "integer" → getDefaultValue schema = .num 0) ∧
      (getSchemaType schema = "string" → getDefaultValue schema = .str "")) ∧
    (∀ props : List (String × JsonSchema),
      handleAdd (arrayOf (objectSchemaWith props)) (.arr []) = .arr [.obj []]) := by
  refine ⟨?_, ?_, fun props => rfl⟩
  · intro d hd hdef
    unfold getDefaultValue
    rw [hd, if_pos hdef]
    rfl
  · intro hdef
    have hneg : ¬ (jsDefined schema.default = true) := by simp [hdef]
    refine ⟨?_, ?_, ?_, ?_, ?_, ?_⟩ <;>
      (intro ht; unfold getDefaultValue; rw [if_neg hneg, ht]; rfl)

/-- Witness for C5: a literal default is returned verbatim; each kind's zero
value; appending to an empty array of objects appends `{}`. -/
theorem getDefaultValue_spec_witness :
    getDefaultValue withDefault7 = .num 7 ∧
    getDefaultValue (typedSchema "object") = .obj [] ∧
    getDefaultValue (typedSchema "array") = .arr [] ∧
    getDefaultValue (typedSchema "boolean") = .bool false ∧
    getDefaultValue (typedSchema "number") = .num 0 ∧
    getDefaultValue (typedSchema "integer") = .num 0 ∧
    getDefaultValue (typedSchema "string") = .str "" ∧
    handleAdd (arrayOf (objectSchemaWith [("a", typedSchema "number"), ("b", typedSchema "string")]))
      (.arr []) = .arr [.obj []] :=
  ⟨(getDefaultValue_spec withDefault7).1 (.num 7) rfl rfl,
    ((getDefaultValue_spec (typedSchema "object")).2.1 rfl).1 rfl,
    ((getDefaultValue_spec (typedSchema "array")).2.1 rfl).2.1 rfl,
    ((getDefaultValue_spec (typedSchema "boolean")).2.1 rfl).2.2.1 rfl,
    ((getDefaultValue_spec (typedSchema "number")).2.1 rfl).2.2.2.1 rfl,
    ((getDefaultValue_spec (typedSchema "integer")).2.1 rfl).2.2.2.2.1 rfl,
    ((getDefaultValue_spec (typedSchema "string")).2.1 rfl).2.2.2.2.2 rfl,
    (getDefaultValue_spec (arrayOf (objectSchemaWith []))).2.2
      [("a", typedSchema "number"), ("b", typedSchema "string")]⟩

/-- C8: the classifier puts a property in the complex list iff its resolved
kind is `object` or `array` and in the simple list otherwise, and both lists
are stable sub-sequences of the declaration order; the spec's scenario
classifies `{name: string, tags: array, enabled: boolean}` to
simple `[name, enabled]` and complex `[tags]`, in that order. -/
theorem classifier_stable_partition (entries : List (String × JsonSchema))
    (p : String × JsonSchema) :
    (p ∈ complexFields entries ↔
      p ∈ entries ∧ (getSchemaType p.2 = "object" ∨ getSchemaType p.2 = "array")) ∧
    (p ∈ simpleFields entries ↔
      p ∈ entries ∧ ¬(getSchemaType p.2 = "object" ∨ getSchemaType p.2 = "array")) ∧
    List.Sublist (simpleFields entries) entries ∧
    List.Sublist (complexFields entries) entries ∧
    simpleFields exampleProps =
      [("name", typedSchema "string"), ("enabled", typedSchema "boolean")] ∧
    complexFields exampleProps = [("tags", arrayOf (typedSchema "string"))] := by
  refine ⟨?_, ?_, List.filter_sublist _, List.filter_sublist _, rfl, rfl⟩
  · simp [complexFields, List.mem_filter]
  · simp [simpleFields, List.mem_filter, not_or]

/-- C3: a key absent from the schema's `properties` map survives any edit to a
declared sibling property, with its value unchanged: it is still present and
reads back the same. -/
theorem unknown_properties_preserved (schema : JsonSchema)
    (props : List (String × JsonSchema)) (fields : List (String × JValue))
    (p uk : String) (pv : JValue)
    (_hprops : schema.properties = some props)
    (hp : p ∈ props.map Prod.fst)
    (huk : uk ∉ props.map Prod.fst) :
    jsGet (objCoerce (handlePropertyChange (.obj fields) p pv)) uk = jsGet fields uk ∧
    hasKey (objCoerce (handlePropertyChange (.obj fields) p pv)) uk = hasKey fields uk := by
  have hne : uk ≠ p := fun h => huk (h ▸ hp)
  exact ⟨jsGet_jsObjSet_ne fields p uk pv hne, hasKey_jsObjSet_ne fields p uk pv hne⟩

/-- Witness for C3: editing declared property `a` of
`{a: 1, meta: "x"}` under a schema that only declares `a` keeps `meta`. -/
theorem unknown_properties_preserved_witness :
    (objectSchemaWith [("a", typedSchema "number")]).properties =
      some [("a", typedSchema "number")] ∧
    "a" ∈ ([("a", typedSchema "number")].map Prod.fst) ∧
    "meta" ∉ ([("a", typedSchema "number")].map Prod.fst) ∧
    (jsGet (objCoerce (handlePropertyChange
        (.obj [("a", JValue.num 1), ("meta", JValue.str "x")]) "a" (JValue.num 9))) "meta" =
      jsGet [("a", JValue.num 1), ("meta", JValue.str "x")] "meta" ∧
    hasKey (objCoerce (handlePropertyChange
        (.obj [("a", JValue.num 1), ("meta", JValue.str "x")]) "a" (JValue.num 9))) "meta" =
      hasKey [("a", JValue.num 1), ("meta", JValue.str "x")] "meta") :=
  ⟨rfl, by decide, by decide,
    unknown_properties_preserved (objectSchemaWith [("a", typedSchema "number")])
      [("a", typedSchema "number")] [("a", JValue.num 1), ("meta", JValue.str "x")]
      "a" "meta" (JValue.num 9) rfl (by decide) (by decide)⟩

/-- C2: every change callback produces a new container by shallow-copying the
immediate object or array and substituting only the changed child: a property
change keeps every other key's value, an append keeps every existing index, a
removal keeps every surviving element, and an item update keeps every other
index and the length. -/
theorem change_callbacks_are_frame_preserving (fields : List (String × JValue))
    (k k' : String) (pv : JValue) (schema : JsonSchema) (l : List JValue)
    (w : JValue) (i j : ℕ)
    (hk : k' ≠ k) (hi : i < l.length) (hj : j < l.length) (hji : j ≠ i) :
    jsGet (objCoerce (handlePropertyChange (.obj fields) k pv)) k' = jsGet fields k' ∧
    jsGet (objCoerce (handlePropertyChange (.obj fields) k pv)) k = pv ∧
    arrCoerce (handleAdd schema (.arr l)) =
      l ++ [getDefaultValue (itemSchemaOf schema)] ∧
    (arrCoerce (handleAdd schema (.arr l)))[j]? = l[j]? ∧
    (arrCoerce (handleRemove (.arr l) i)).length = l.length - 1 ∧
    (j < i → (arrCoerce (handleRemove (.arr l) i))[j]? = l[j]?) ∧
    (i ≤ j → j < l.length - 1 →
      (arrCoerce (handleRemove (.arr l) i))[j]? = l[j + 1]?) ∧
    (arrCoerce (handleItemChange (.arr l) i w)).length = l.length ∧
    (arrCoerce (handleItemChange (.arr l) i w))[j]? = l[j]? ∧
    (arrCoerce (handleItemChange (.arr l) i w))[i]? = some w := by
  refine ⟨jsGet_jsObjSet_ne fields k k' pv hk, jsGet_jsObjSet_self fields k pv,
    rfl, List.getElem?_append_left hj,
    remove_length l i hi,
    fun hji2 => remove_getElem_lt l i j hi hji2,
    fun hij hjl => remove_getElem_ge l i j hi hij hjl,
    set_length l i w hi,
    set_getElem_ne l i j w hi hji,
    set_getElem_self l i w hi⟩

/-- Witness for C2: the four callbacks on `{a: 1, b: 2}` and `[10, 20, 30]`
with edit key `a`, spectator key `b`, edit index 1 and spectator index 2. -/
theorem change_callbacks_are_frame_preserving_witness :
    ("b" : String) ≠ "a" ∧
    1 < ([JValue.num 10, JValue.num 20, JValue.num 30] : List JValue).length ∧
    2 < ([JValue.num 10, JValue.num 20, JValue.num 30] : List JValue).length ∧
    (2 : ℕ) ≠ 1 ∧
    (jsGet (objCoerce (handlePropertyChange
        (.obj [("a", JValue.num 1), ("b", JValue.num 2)]) "a" (JValue.num 9))) "b" =
      jsGet [("a", JValue.num 1), ("b", JValue.num 2)] "b" ∧
    jsGet (objCoerce (handlePropertyChange
        (.obj [("a", JValue.num 1), ("b", JValue.num 2)]) "a" (JValue.num 9))) "a" =
      JValue.num 9 ∧
    arrCoerce (handleAdd (typedSchema "array") (.arr [JValue.num 10, JValue.num 20, JValue.num 30])) =
      [JValue.num 10, JValue.num 20, JValue.num 30] ++
        [getDefaultValue (itemSchemaOf (typedSchema "array"))] ∧
    (arrCoerce (handleAdd (typedSchema "array")
        (.arr [JValue.num 10, JValue.num 20, JValue.num 30])))[2]? =
      ([JValue.num 10, JValue.num 20, JValue.num 30] : List JValue)[2]? ∧
    (arrCoerce (handleRemove (.arr [JValue.num 10, JValue.num 20, JValue.num 30]) 1)).length =
      ([JValue.num 10, JValue.num 20, JValue.num 30] : List JValue).length - 1 ∧
    ((2 : ℕ) < 1 →
      (arrCoerce (handleRemove (.arr [JValue.num 10, JValue.num 20, JValue.num 30]) 1))[2]? =
        ([JValue.num 10, JValue.num 20, JValue.num 30] : List JValue)[2]?) ∧
    ((1 : ℕ) ≤ 2 → 2 < ([JValue.num 10, JValue.num 20, JValue.num 30] : List JValue).length - 1 →
      (arrCoerce (handleRemove (.arr [JValue.num 10, JValue.num 20, JValue.num 30]) 1))[2]? =
        ([JValue.num 10, JValue.num 20, JValue.num 30] : List JValue)[2 + 1]?) ∧
    (arrCoerce (handleItemChange
        (.arr [JValue.num 10, JValue.num 20, JValue.num 30]) 1 (JValue.num 99))).length =
      ([JValue.num 10, JValue.num 20, JValue.num 30] : List JValue).length ∧
    (arrCoerce (handleItemChange
        (.arr [JValue.num 10, JValue.num 20, JValue.num 30]) 1 (JValue.num 99)))[2]? =
      ([JValue.num 10, JValue.num 20, JValue.num 30] : List JValue)[2]? ∧
    (arrCoerce (handleItemChange
        (.arr [JValue.num 10, JValue.num 20, JValue.num 30]) 1 (JValue.num 99)))[1]? =
      some (JValue.num 99)) :=
  ⟨by decide, by decide, by decide, by decide,
    change_callbacks_are_frame_preserving
      [("a", JValue.num 1), ("b", JValue.num 2)] "a" "b" (JValue.num 9)
      (typedSchema "array") [JValue.num 10, JValue.num 20, JValue.num 30]
      (JValue.num 99) 1 2 (by decide) (by decide) (by decide) (by decide)⟩

/-- C4: when the select control reports a chosen display string, the callback
propagates the first enum literal whose string representation matches (keeping
its original literal type), and falls back to the raw selection string when no
literal matches; selecting `"2"` against `enum: [1, 2, 3]` propagates the
number `2`. -/
theorem enum_selection_roundtrip (schema : JsonSchema) (es : List JLit) (v : String)
    (he : schema.enum = some es) (_hne : es ≠ []) :
    (∀ e, es.find? (fun x => x.toDisplayString == v) = some e →
      enumOnValueChange schema v = e.toJValue) ∧
    ((∀ e ∈ es, e.toDisplayString ≠ v) → enumOnValueChange schema v = .str v) ∧
    enumOnValueChange numEnumSchema "2" = .num 2 := by
  refine ⟨?_, ?_, rfl⟩
  · intro e hf
    simp [enumOnValueChange, he, hf]
  · intro hnone
    have hmiss : es.find? (fun x => x.toDisplayString == v) = none := by
      rw [List.find?_eq_none]
      intro x hx
      simpa using hnone x hx
    simp [enumOnValueChange, he, hmiss]

/-- Witness for C4: the spec scenario `enum: [1, 2, 3]`, selection `"2"`. -/
theorem enum_selection_roundtrip_witness :
    numEnumSchema.enum = some [JLit.num 1, JLit.num 2, JLit.num 3] ∧
    ([JLit.num 1, JLit.num 2, JLit.num 3] : List JLit) ≠ [] ∧
    ((∀ e, ([JLit.num 1, JLit.num 2, JLit.num 3] : List JLit).find?
          (fun x => x.toDisplayString == "2") = some e →
        enumOnValueChange numEnumSchema "2" = e.toJValue) ∧
      ((∀ e ∈ ([JLit.num 1, JLit.num 2, JLit.num 3] : List JLit),
          e.toDisplayString ≠ "2") → enumOnValueChange numEnumSchema "2" = .str "2") ∧
      enumOnValueChange numEnumSchema "2" = .num 2) :=
  ⟨rfl, List.cons_ne_nil _ _,
    enum_selection_roundtrip numEnumSchema [JLit.num 1, JLit.num 2, JLit.num 3] "2"
      rfl (List.cons_ne_nil _ _)⟩

/-- C9: a numeric field's edit handler parses with `parseInt` for kind
`integer` and `parseFloat` for kind `number`; a failed parse (`NaN`)
propagates the absent value `undefined`, a successful parse propagates the
parsed number. -/
theorem numeric_parse_failure_is_absent (schema : JsonSchema) (text : String) :
    (getSchemaType schema = "integer" →
      (jsParseInt text = none → numberOnChange schema text = .undefined) ∧
      (∀ q, jsParseInt text = some q → numberOnChange schema text = .num q)) ∧
    (getSchemaType schema = "number" →
      (jsParseFloat text = none → numberOnChange schema text = .undefined) ∧
      (∀ q, jsParseFloat text = some q → numberOnChange schema text = .num q)) := by
  constructor
  · intro ht
    constructor
    · intro hp
      simp [numberOnChange, ht, hp]
    · intro q hp
      simp [numberOnChange, ht, hp]
  · intro ht
    have hne : (getSchemaType schema == "integer") = false := by
      rw [ht]
      decide
    constructor
    · intro hp
      simp [numberOnChange, hne, hp]
    · intro q hp
      simp [numberOnChange, hne, hp]

/-- Witness for C9: `"abc"` on an integer field becomes `undefined`; `"2.5"`
on a number field becomes the number `2.5`. -/
theorem numeric_parse_failure_is_absent_witness :
    getSchemaType (typedSchema "integer") = "integer" ∧
    jsParseInt "abc" = none ∧
    numberOnChange (typedSchema "integer") "abc" = .undefined ∧
    getSchemaType (typedSchema "number") = "number" ∧
    jsParseFloat "2.5" = some (mkRat 5 2) ∧
    numberOnChange (typedSchema "number") "2.5" = .num (mkRat 5 2) :=
  ⟨rfl, rfl,
    ((numeric_parse_failure_is_absent (typedSchema "integer") "abc").1 rfl).1 rfl,
    rfl, by decide,
    ((numeric_parse_failure_is_absent (typedSchema "number") "2.5").2 rfl).2
      (mkRat 5 2) (by decide)⟩

/-- `{ type: "string", maxLength: 300, format: "textarea" }` -/
def multilineSchema : JsonSchema :=
  .mk (some (.single "string")) none none none none none none none none none none
    (some 300) none (some "textarea")

/-- C10: a string field rendered multi-line (`format: "textarea"` or
`maxLength > 200`) propagates an empty edit as the empty string itself,
whereas the single-line text input maps an empty edit to the absent value; the
empty-text-means-unset rule holds only for the single-line input. -/
theorem multiline_empty_edit_keeps_empty_string (schema : JsonSchema) (m : ℚ)
    (t : String) :
    (schema.format = some "textarea" → isMultiline schema = true) ∧
    (schema.maxLength = some m → m > 200 → isMultiline schema = true) ∧
    (getSchemaType schema ≠ "boolean" → hasEnum schema = false →
      getSchemaType schema ≠ "number" → getSchemaType schema ≠ "integer" →
      isMultiline schema = true → primitiveRender schema = .textareaInput) ∧
    textareaOnChange "" = .str "" ∧
    textInputOnChange "" = .undefined ∧
    (t ≠ "" → textInputOnChange t = .str t) := by
  refine ⟨?_, ?_, ?_, rfl, rfl, ?_⟩
  · intro hf
    simp [isMultiline, hf]
  · intro hm h200
    have hne : ¬ (m = 0) := by
      have : (0 : ℚ) < m := lt_trans (by norm_num) h200
      exact this.ne'
    simp [isMultiline, hm, hne, h200]
  · intro hb he hn hi hm
    have hb' : (getSchemaType schema == "boolean") = false := by simp [hb]
    have hn' : (getSchemaType schema == "number") = false := by simp [hn]
    have hi' : (getSchemaType schema == "integer") = false := by simp [hi]
    simp [primitiveRender, hb', he, hn', hi', hm]
  · intro ht
    simp [textInputOnChange, ht]

/-- Witness for C10: a `format: "textarea"`, `maxLength: 300` string schema
renders as a textarea; the empty edit keeps `""` there and becomes absent on a
single-line input. -/
theorem multiline_empty_edit_keeps_empty_string_witness :
    multilineSchema.format = some "textarea" ∧
    multilineSchema.maxLength = some 300 ∧
    (300 : ℚ) > 200 ∧
    isMultiline multilineSchema = true ∧
    primitiveRender multilineSchema = .textareaInput ∧
    textareaOnChange "" = .str "" ∧
    textInputOnChange "" = .undefined ∧
    textInputOnChange "x" = .str "x" := by
  refine ⟨rfl, rfl, by norm_num, ?_, ?_, rfl, rfl, ?_⟩
  · exact (multiline_empty_edit_keeps_empty_string multilineSchema 300 "x").1 rfl
  · exact (multiline_empty_edit_keeps_empty_string multilineSchema 300 "x").2.2.1
      (by decide) rfl (by decide) (by decide) rfl
  · exact (multiline_empty_edit_keeps_empty_string multilineSchema 300 "x").2.2.2.2.2
      (by decide)

/-- C1 counterexample: the claim "a non-empty enum forces closed-choice
rendering regardless of declared kind" fails at
`{ type: "boolean", enum: [true, false] }`, which the editor renders as a
boolean toggle because the boolean branch precedes the enum branch. -/
theorem enum_boolean_toggle_counterexample :
    hasEnum boolEnumSchema = true ∧
    primitiveRender boolEnumSchema = .booleanToggle ∧
    ¬ (∀ schema : JsonSchema, hasEnum schema = true →
      primitiveRender schema = .enumSelect) := by
  refine ⟨rfl, rfl, fun h => ?_⟩
  exact absurd (h boolEnumSchema rfl) (by decide)

/-- C1 (amended): a node with a present non-empty enum renders as a closed
choice whenever its resolved kind is not `boolean`; a boolean-kind node
renders as a boolean toggle even when a non-empty enum is present. -/
theorem enum_forces_closed_choice_unless_boolean (schema : JsonSchema)
    (hb : getSchemaType schema ≠ "boolean") (he : hasEnum schema = true) :
    primitiveRender schema = .enumSelect ∧
    primitiveRender boolEnumSchema = .booleanToggle := by
  have hb' : (getSchemaType schema == "boolean") = false := by simp [hb]
  exact ⟨by simp [primitiveRender, hb', he], rfl⟩

/-- Witness for C1 (amended): `{ enum: [1, 2, 3] }` resolves to kind `string`
and renders as a closed choice. -/
theorem enum_forces_closed_choice_unless_boolean_witness :
    getSchemaType numEnumSchema ≠ "boolean" ∧
    hasEnum numEnumSchema = true ∧
    (primitiveRender numEnumSchema = .enumSelect ∧
      primitiveRender boolEnumSchema = .booleanToggle) :=
  ⟨by decide, rfl,
    enum_forces_closed_choice_unless_boolean numEnumSchema (by decide) rfl⟩

end SchemaForm
